import Mathlib

/-!
Shallow embedding of `main.py` of the Radiobackend repository: a FastAPI
service exposing CRUD operations over a single `users` table.  Each request
handler acquires a pooled database connection, runs exactly one SQL
statement, and maps the result to an HTTP response.  The table state is
modelled explicitly; the database driver's possible failure is an oracle
argument; connection acquire/release events are traced so the scoped
`async with pool.acquire()` discipline can be stated.
-/

namespace Radiobackend

/-- Input schema of the service (class `Post` in main.py): the payload shape
accepted on create and update.  `picture` and `is_active` are accepted by
validation but never referenced by any SQL statement of the handlers. -/
structure Post where
  name : String
  email : String
  phone : Option String
  password : String
  picture : Option String
  is_active : Bool
deriving Repr, DecidableEq

/-- A row of the `users` table: columns id, name, email, phone (nullable),
password.  The table has no columns for picture or is_active. -/
structure UserRow where
  id : Int
  name : String
  email : String
  phone : Option String
  password : String
deriving Repr, DecidableEq

/-- The `users` table (rows in natural scan order) together with the id
sequence the database uses to generate surrogate keys on insert. -/
structure DBState where
  rows : List UserRow
  nextId : Int
deriving Repr, DecidableEq

/-- Semantics of `SELECT * FROM users` (conn.fetch in get_users). -/
def sqlSelectAll (db : DBState) : List UserRow := db.rows

/-- Semantics of `SELECT * FROM users WHERE id = $1` under conn.fetchrow:
the first matching row, or none. -/
def sqlSelectById (db : DBState) (uid : Int) : Option UserRow :=
  db.rows.find? (fun r => r.id == uid)

/-- Semantics of `INSERT INTO users (name, email, phone, password)
VALUES ($1, $2, $3, $4) RETURNING *`: the database assigns the next value
of the id sequence, appends the new row, and returns it. -/
def sqlInsert (db : DBState) (name email : String) (phone : Option String)
    (password : String) : UserRow × DBState :=
  let row : UserRow := ⟨db.nextId, name, email, phone, password⟩
  (row, ⟨db.rows ++ [row], db.nextId + 1⟩)

/-- Semantics of `DELETE FROM users WHERE id = $1` (conn.execute in
delete_user): every row matching the id is removed. -/
def sqlDelete (db : DBState) (uid : Int) : DBState :=
  ⟨db.rows.filter (fun r => r.id != uid), db.nextId⟩

/-- Semantics of `UPDATE users SET name = $1, email = $2, phone = $3,
password = $4 WHERE id = $5 RETURNING *` under conn.fetchrow: every row
matching the id is overwritten in place, and the first updated row (or
none, when no row matched) is returned. -/
def sqlUpdate (db : DBState) (uid : Int) (name email : String)
    (phone : Option String) (password : String) : Option UserRow × DBState :=
  let rows2 := db.rows.map (fun r =>
    if r.id == uid then ⟨r.id, name, email, phone, password⟩ else r)
  (rows2.find? (fun r => r.id == uid), ⟨rows2, db.nextId⟩)

/-- Exceptions that can cross a handler boundary: an HTTPException raised by
the handler itself, or a database-driver exception with its message. -/
inductive PyExc where
  | http (statusCode : Nat) (detail : String)
  | db (msg : String)
deriving Repr, DecidableEq

/-- `str(e)` for an exception value. -/
def excStr (e : PyExc) : String :=
  match e with
  | PyExc.http _ d => d
  | PyExc.db msg => msg

/-- Outcome of one handler invocation as seen by the HTTP framework:
a normal return value, a raised HTTPException (which the framework turns
into a response with that status and detail), a JSONResponse returned
directly with an explicit status code and an error body, or an exception
that propagates past the handler uncaught. -/
inductive PyResult (α : Type) where
  | ok (body : α)
  | httpExc (statusCode : Nat) (detail : String)
  | jsonError (statusCode : Nat) (error : String)
  | unhandled (msg : String)
deriving Repr, DecidableEq

/-- Connection-pool events a handler emits. -/
inductive ConnEvent where
  | acquire
  | release
deriving Repr, DecidableEq

/-- Embedding of the statement `async with pool.acquire() as conn: body`.
The connection is acquired on scope entry and released when the scope
exits, on every path: whether the body returns normally or raises, the
context-manager protocol runs the release. -/
def withConn {α : Type} (body : Except PyExc α) :
    Except PyExc α × List ConnEvent :=
  (body, [ConnEvent.acquire, ConnEvent.release])

/-- One awaited database call: the oracle `dbErr` says whether the driver
raises (with the given message) or the call succeeds with value `ok`. -/
def dbCall {α : Type} (dbErr : Option String) (ok : α) : Except PyExc α :=
  match dbErr with
  | some msg => Except.error (PyExc.db msg)
  | none => Except.ok ok

/-- An exception escaping a handler: an HTTPException becomes the framework
response it denotes; any other exception propagates unhandled. -/
def escape {α : Type} (e : PyExc) : PyResult α :=
  match e with
  | PyExc.http c d => PyResult.httpExc c d
  | PyExc.db msg => PyResult.unhandled msg

/-- Handler `GET /users` (get_users in main.py): fetch all rows inside the
connection scope and return them; no try/except, so a driver exception
propagates uncaught. -/
def get_users (dbErr : Option String) (db : DBState) :
    PyResult (List UserRow) × DBState × List ConnEvent :=
  match withConn (dbCall dbErr (sqlSelectAll db)) with
  | (Except.ok rows, ev) => (PyResult.ok rows, db, ev)
  | (Except.error e, ev) => (escape e, db, ev)

/-- Handler `POST /users` (create_user in main.py): inside the connection
scope, try the insert; on a driver exception return
`JSONResponse(status_code=500, content=error str(e))` from within the
scope; otherwise return the inserted row (declared status 201). -/
def create_user (dbErr : Option String) (post : Post) (db : DBState) :
    PyResult UserRow × DBState × List ConnEvent :=
  match withConn
      (match dbCall dbErr
          (sqlInsert db post.name post.email post.phone post.password) with
       | Except.ok (row, db2) => Except.ok (PyResult.ok row, db2)
       | Except.error e => Except.ok (PyResult.jsonError 500 (excStr e), db)) with
  | (Except.ok (res, db2), ev) => (res, db2, ev)
  | (Except.error e, ev) => (escape e, db, ev)

/-- Handler `GET /users/{user_id}` (get_user in main.py): fetch the row in
the connection scope; after the scope, raise HTTPException 404 naming the
id when no row was found, else return the row.  No try/except, so a driver
exception propagates uncaught. -/
def get_user (dbErr : Option String) (user_id : Int) (db : DBState) :
    PyResult UserRow × DBState × List ConnEvent :=
  match withConn (dbCall dbErr (sqlSelectById db user_id)) with
  | (Except.ok none, ev) =>
      (PyResult.httpExc 404
        ("User with id:" ++ toString user_id ++ " was not found"), db, ev)
  | (Except.ok (some row), ev) => (PyResult.ok row, db, ev)
  | (Except.error e, ev) => (escape e, db, ev)

/-- Handler `DELETE /users/{user_id}` (delete_user in main.py): inside the
connection scope, try the delete; on a driver exception raise
HTTPException 500 with the error embedded; otherwise return the success
message regardless of whether any row matched. -/
def delete_user (dbErr : Option String) (user_id : Int) (db : DBState) :
    PyResult String × DBState × List ConnEvent :=
  match withConn
      (match dbCall dbErr (sqlDelete db user_id) with
       | Except.ok db2 => Except.ok db2
       | Except.error e =>
           Except.error (PyExc.http 500 ("Failed to delete user: " ++ excStr e))) with
  | (Except.ok db2, ev) => (PyResult.ok "User successfully deleted", db2, ev)
  | (Except.error e, ev) => (escape e, db, ev)

/-- Handler `PUT /users/{user_id}` (update_user in main.py): run the update
in the connection scope; after the scope, raise HTTPException 404 naming
the id when no row matched, else return the updated row.  No try/except,
so a driver exception propagates uncaught. -/
def update_user (dbErr : Option String) (user_id : Int) (post : Post)
    (db : DBState) : PyResult UserRow × DBState × List ConnEvent :=
  match withConn
      (dbCall dbErr
        (sqlUpdate db user_id post.name post.email post.phone post.password)) with
  | (Except.ok (none, db2), ev) =>
      (PyResult.httpExc 404
        ("User with id:" ++ toString user_id ++ " was not found"), db2, ev)
  | (Except.ok (some row, db2), ev) => (PyResult.ok row, db2, ev)
  | (Except.error e, ev) => (escape e, db, ev)

/-- Status code declared on the `POST /users` route decorator
(status.HTTP_201_CREATED). -/
def create_user_status : Nat := 201

/-- Status code declared on the `DELETE /users/{user_id}` route decorator
(status.HTTP_204_NO_CONTENT). -/
def delete_user_status : Nat := 204

/-- Invariant maintained by the database: row ids are pairwise distinct and
strictly below the id sequence value (id is a surrogate primary key,
assigned only by the storage layer on insert). -/
def DBState.wf (db : DBState) : Prop :=
  (db.rows.map UserRow.id).Nodup ∧ ∀ r ∈ db.rows, r.id < db.nextId

instance (db : DBState) : Decidable db.wf :=
  inferInstanceAs (Decidable (_ ∧ _))

/-- The empty table with the id sequence at its initial value. -/
def emptyDB : DBState := ⟨[], 1⟩

/-- Create one user per payload, in order, threading the table state. -/
def createAll (ps : List Post) (db : DBState) : DBState :=
  ps.foldl (fun d p => (create_user none p d).2.1) db

/-- Delete each id in order, threading the table state. -/
def deleteAll (ids : List Int) (db : DBState) : DBState :=
  ids.foldl (fun d i => (delete_user none i d).2.1) db

/-- A sample payload used to instantiate the theorems. -/
def samplePost : Post :=
  ⟨"Alice", "alice@example.com", some "123", "pw", none, true⟩

/-- A sample well-formed table state used to instantiate the theorems. -/
def sampleDB : DBState :=
  ⟨[⟨1, "Bob", "bob@example.com", none, "secret"⟩], 2⟩

/-- Reduction of create_user when the driver does not fail. -/
lemma create_user_none (p : Post) (db : DBState) :
    create_user none p db =
      (PyResult.ok ⟨db.nextId, p.name, p.email, p.phone, p.password⟩,
       ⟨db.rows ++ [⟨db.nextId, p.name, p.email, p.phone, p.password⟩],
        db.nextId + 1⟩,
       [ConnEvent.acquire, ConnEvent.release]) := rfl

/-- Reduction of delete_user when the driver does not fail. -/
lemma delete_user_none (uid : Int) (db : DBState) :
    delete_user none uid db =
      (PyResult.ok "User successfully deleted",
       ⟨db.rows.filter (fun r => r.id != uid), db.nextId⟩,
       [ConnEvent.acquire, ConnEvent.release]) := rfl

/-- Reduction of get_user when the driver does not fail and a row is found. -/
lemma get_user_none_found (uid : Int) (db : DBState) (row : UserRow)
    (h : db.rows.find? (fun r => r.id == uid) = some row) :
    get_user none uid db =
      (PyResult.ok row, db, [ConnEvent.acquire, ConnEvent.release]) := by
  simp only [get_user, withConn, dbCall, sqlSelectById, h]

/-- Reduction of get_user when the driver does not fail and no row is found. -/
lemma get_user_none_missing (uid : Int) (db : DBState)
    (h : db.rows.find? (fun r => r.id == uid) = none) :
    get_user none uid db =
      (PyResult.httpExc 404 ("User with id:" ++ toString uid ++ " was not found"),
       db, [ConnEvent.acquire, ConnEvent.release]) := by
  simp only [get_user, withConn, dbCall, sqlSelectById, h]

/-- Reduction of update_user when the driver does not fail. -/
lemma update_user_none (uid : Int) (p : Post) (db : DBState) :
    update_user none uid p db =
      (match (sqlUpdate db uid p.name p.email p.phone p.password).1 with
       | none => PyResult.httpExc 404
           ("User with id:" ++ toString uid ++ " was not found")
       | some row => PyResult.ok row,
       (sqlUpdate db uid p.name p.email p.phone p.password).2,
       [ConnEvent.acquire, ConnEvent.release]) := by
  simp only [update_user, withConn, dbCall]
  cases h : (sqlUpdate db uid p.name p.email p.phone p.password) with
  | mk fst snd => cases fst <;> simp

/-- In a list whose row with a given id is absent, appending a row with that
id makes find? return exactly the appended row. -/
lemma find?_id_append_singleton (l : List UserRow) (row : UserRow)
    (h : ∀ r ∈ l, r.id ≠ row.id) :
    (l ++ [row]).find? (fun r => r.id == row.id) = some row := by
  induction l with
  | nil => simp [List.find?_cons_of_pos]
  | cons a t ih =>
      have ha : ¬ ((a.id == row.id) = true) := by
        simp only [beq_iff_eq]
        exact h a (List.mem_cons_self a t)
      rw [List.cons_append,
        @List.find?_cons_of_neg _ (fun r => r.id == row.id) a (t ++ [row]) ha]
      exact ih (fun r hr => h r (List.mem_cons_of_mem a hr))

/-- After filtering out every row with a given id, find? for that id fails. -/
lemma find?_filter_ne (l : List UserRow) (uid : Int) :
    (l.filter (fun r => r.id != uid)).find? (fun r => r.id == uid) = none := by
  rw [List.find?_eq_none]
  intro x hx
  have := (List.mem_filter.mp hx).2
  simp only [bne_iff_ne, ne_eq] at this
  simp [beq_iff_eq, this]

/-- find? over the updated row list fails when no original row matches. -/
lemma find?_map_update_none (l : List UserRow) (uid : Int) (n e : String)
    (ph : Option String) (pw : String) (h : ∀ r ∈ l, r.id ≠ uid) :
    (l.map (fun r =>
        if r.id == uid then (⟨r.id, n, e, ph, pw⟩ : UserRow) else r)).find?
      (fun r => r.id == uid) = none := by
  rw [List.find?_eq_none]
  intro x hx
  obtain ⟨r, hr, rfl⟩ := List.mem_map.mp hx
  have hne : r.id ≠ uid := h r hr
  rw [if_neg (by simpa [beq_iff_eq] using hne)]
  simpa [beq_iff_eq] using hne

/-- find? over the updated row list returns the overwritten row when some
original row matches. -/
lemma find?_map_update_some (l : List UserRow) (uid : Int) (n e : String)
    (ph : Option String) (pw : String) (h : ∃ r ∈ l, r.id = uid) :
    (l.map (fun r =>
        if r.id == uid then (⟨r.id, n, e, ph, pw⟩ : UserRow) else r)).find?
      (fun r => r.id == uid) = some ⟨uid, n, e, ph, pw⟩ := by
  induction l with
  | nil => simp at h
  | cons a t ih =>
      simp only [List.map_cons]
      by_cases ha : a.id = uid
      · rw [if_pos (by simpa [beq_iff_eq] using ha)]
        rw [List.find?_cons_of_pos _ (by simpa [beq_iff_eq] using ha)]
        rw [ha]
      · rw [if_neg (by simpa [beq_iff_eq] using ha)]
        rw [@List.find?_cons_of_neg _ (fun r => r.id == uid) a _
          (by simpa [beq_iff_eq] using ha)]
        apply ih
        obtain ⟨r, hr, hrid⟩ := h
        rcases List.mem_cons.mp hr with hEq | hrt
        · exact absurd (hEq ▸ hrid) ha
        · exact ⟨r, hrt, hrid⟩

/-- Ids are untouched by the update rewrite of the row list. -/
lemma map_id_update (l : List UserRow) (uid : Int) (n e : String)
    (ph : Option String) (pw : String) :
    ((l.map (fun r =>
        if r.id == uid then (⟨r.id, n, e, ph, pw⟩ : UserRow) else r)).map
      UserRow.id) = l.map UserRow.id := by
  rw [List.map_map]
  apply List.map_congr_left
  intro r _
  by_cases hr : r.id = uid
  · rw [Function.comp_apply, if_pos (by simpa [beq_iff_eq] using hr)]
  · rw [Function.comp_apply, if_neg (by simpa [beq_iff_eq] using hr)]

/-- Creating a user preserves the table invariant. -/
lemma wf_create (p : Post) (db : DBState) (h : db.wf) :
    ((create_user none p db).2.1).wf := by
  obtain ⟨hnd, hlt⟩ := h
  rw [create_user_none]
  constructor
  · show ((db.rows ++
        [(⟨db.nextId, p.name, p.email, p.phone, p.password⟩ : UserRow)]).map
      UserRow.id).Nodup
    rw [List.map_append]
    apply List.Nodup.append hnd (by simp)
    intro a ha hb
    simp only [List.map_cons, List.map_nil, List.mem_singleton] at hb
    obtain ⟨r, hr, rfl⟩ := List.mem_map.mp ha
    exact Int.ne_of_lt (hlt r hr) hb
  · show ∀ r ∈ db.rows ++
        [(⟨db.nextId, p.name, p.email, p.phone, p.password⟩ : UserRow)],
      r.id < db.nextId + 1
    intro r hr
    rcases List.mem_append.mp hr with hl | hl
    · have := hlt r hl
      omega
    · rw [List.mem_singleton.mp hl]
      show db.nextId < db.nextId + 1
      omega

/-- Deleting a user preserves the table invariant. -/
lemma wf_delete (uid : Int) (db : DBState) (h : db.wf) :
    ((delete_user none uid db).2.1).wf := by
  rw [delete_user_none]
  obtain ⟨hnd, hlt⟩ := h
  constructor
  · exact List.Nodup.sublist ((List.filter_sublist db.rows).map UserRow.id) hnd
  · intro r hr
    exact hlt r (List.mem_filter.mp hr).1

/-- Updating a user preserves the table invariant. -/
lemma wf_update (uid : Int) (p : Post) (db : DBState) (h : db.wf) :
    ((update_user none uid p db).2.1).wf := by
  obtain ⟨hnd, hlt⟩ := h
  rw [update_user_none]
  refine ⟨?_, ?_⟩
  · show ((db.rows.map (fun r =>
        if r.id == uid then
          (⟨r.id, p.name, p.email, p.phone, p.password⟩ : UserRow)
        else r)).map UserRow.id).Nodup
    rw [map_id_update]
    exact hnd
  · show ∀ r ∈ db.rows.map (fun r =>
        if r.id == uid then
          (⟨r.id, p.name, p.email, p.phone, p.password⟩ : UserRow)
        else r), r.id < db.nextId
    intro r hr
    obtain ⟨r0, hr0, rfl⟩ := List.mem_map.mp hr
    by_cases h0 : r0.id = uid
    · rw [if_pos (by simpa [beq_iff_eq] using h0)]
      exact hlt r0 hr0
    · rw [if_neg (by simpa [beq_iff_eq] using h0)]
      exact hlt r0 hr0

/-- Removing the (unique) row carrying a present id shrinks the table by
exactly one row. -/
lemma length_filter_ne_of_mem (l : List UserRow) (uid : Int)
    (hn : (l.map UserRow.id).Nodup) (hm : uid ∈ l.map UserRow.id) :
    (l.filter (fun r => r.id != uid)).length + 1 = l.length := by
  induction l with
  | nil => simp at hm
  | cons a t ih =>
      simp only [List.map_cons, List.nodup_cons] at hn
      obtain ⟨hna, hnt⟩ := hn
      by_cases hau : a.id = uid
      · have ht : t.filter (fun r => r.id != uid) = t := by
          rw [List.filter_eq_self]
          intro r hr
          simp only [bne_iff_ne, ne_eq, decide_eq_true_eq]
          intro hEq
          apply hna
          rw [hau, ← hEq]
          exact List.mem_map_of_mem UserRow.id hr
        have hcond : ¬ ((a.id != uid) = true) := by
          simp [bne_iff_ne, hau]
        rw [@List.filter_cons_of_neg _ (fun r => r.id != uid) a t hcond, ht]
        simp
      · have hmt : uid ∈ t.map UserRow.id := by
          rcases List.mem_cons.mp hm with hEq | h2
          · exact absurd hEq.symm hau
          · exact h2
        have hcond : (a.id != uid) = true := by
          simp [bne_iff_ne, hau]
        rw [@List.filter_cons_of_pos _ (fun r => r.id != uid) a t hcond]
        have := ih hnt hmt
        simp only [List.length_cons]
        omega

/-- Rows with other ids survive the delete filter. -/
lemma mem_map_id_filter_ne (l : List UserRow) (uid j : Int) (hne : j ≠ uid) :
    j ∈ (l.filter (fun r => r.id != uid)).map UserRow.id ↔
      j ∈ l.map UserRow.id := by
  simp only [List.mem_map, List.mem_filter, bne_iff_ne, ne_eq,
    decide_eq_true_eq]
  constructor
  · rintro ⟨r, ⟨hr, _⟩, rfl⟩
    exact ⟨r, hr, rfl⟩
  · rintro ⟨r, hr, rfl⟩
    exact ⟨r, ⟨hr, hne⟩, rfl⟩

/-- The update statement returns no row when no row carries the id. -/
lemma sqlUpdate_fst_none (db : DBState) (uid : Int) (n e : String)
    (ph : Option String) (pw : String) (h : ∀ r ∈ db.rows, r.id ≠ uid) :
    (sqlUpdate db uid n e ph pw).1 = none :=
  find?_map_update_none db.rows uid n e ph pw h

/-- The update statement returns the overwritten row when a row matches. -/
lemma sqlUpdate_fst_some (db : DBState) (uid : Int) (n e : String)
    (ph : Option String) (pw : String) (h : ∃ r ∈ db.rows, r.id = uid) :
    (sqlUpdate db uid n e ph pw).1 = some ⟨uid, n, e, ph, pw⟩ :=
  find?_map_update_some db.rows uid n e ph pw h

/-- createAll on the empty payload list is the identity. -/
lemma createAll_nil (db : DBState) : createAll [] db = db := rfl

/-- createAll peels off the first payload. -/
lemma createAll_cons (p : Post) (t : List Post) (db : DBState) :
    createAll (p :: t) db = createAll t ((create_user none p db).2.1) := rfl

/-- deleteAll on the empty id list is the identity. -/
lemma deleteAll_nil (db : DBState) : deleteAll [] db = db := rfl

/-- deleteAll peels off the first id. -/
lemma deleteAll_cons (i : Int) (t : List Int) (db : DBState) :
    deleteAll (i :: t) db = deleteAll t ((delete_user none i db).2.1) := rfl

/-- Creating users preserves the invariant and grows the table by exactly
one row per payload. -/
lemma createAll_facts (ps : List Post) : ∀ db : DBState, db.wf →
    (createAll ps db).wf ∧
      (createAll ps db).rows.length = db.rows.length + ps.length := by
  induction ps with
  | nil =>
      intro db hwf
      exact ⟨hwf, by simp [createAll_nil]⟩
  | cons p t ih =>
      intro db hwf
      rw [createAll_cons]
      obtain ⟨w2, l2⟩ := ih ((create_user none p db).2.1) (wf_create p db hwf)
      refine ⟨w2, ?_⟩
      rw [l2]
      have hstep : ((create_user none p db).2.1).rows.length
          = db.rows.length + 1 := by
        rw [create_user_none]
        show (db.rows ++
            [(⟨db.nextId, p.name, p.email, p.phone, p.password⟩ : UserRow)]).length
          = db.rows.length + 1
        rw [List.length_append]
        rfl
      rw [hstep]
      simp only [List.length_cons]
      omega

/-- Deleting pairwise-distinct present ids preserves the invariant and
shrinks the table by exactly one row per id. -/
lemma deleteAll_facts (ids : List Int) : ∀ db : DBState, ids.Nodup → db.wf →
    (∀ i ∈ ids, i ∈ db.rows.map UserRow.id) →
    (deleteAll ids db).wf ∧
      (deleteAll ids db).rows.length + ids.length = db.rows.length := by
  induction ids with
  | nil =>
      intro db _ hwf _
      exact ⟨hwf, by simp [deleteAll_nil]⟩
  | cons i t ih =>
      intro db hn hwf hmem
      rw [deleteAll_cons]
      have hwf2 := wf_delete i db hwf
      have hlen : ((delete_user none i db).2.1).rows.length + 1
          = db.rows.length := by
        rw [delete_user_none]
        exact length_filter_ne_of_mem db.rows i hwf.1
          (hmem i (List.mem_cons_self i t))
      have hnt : t.Nodup := (List.nodup_cons.mp hn).2
      have hit : i ∉ t := (List.nodup_cons.mp hn).1
      have hmem2 : ∀ j ∈ t,
          j ∈ ((delete_user none i db).2.1).rows.map UserRow.id := by
        intro j hj
        have hji : j ≠ i := fun hEq => hit (hEq ▸ hj)
        rw [delete_user_none]
        exact (mem_map_id_filter_ne db.rows i j hji).mpr
          (hmem j (List.mem_cons_of_mem i hj))
      obtain ⟨w2, l2⟩ := ih _ hnt hwf2 hmem2
      refine ⟨w2, ?_⟩
      simp only [List.length_cons]
      omega

/-- get_user never changes the table and always balances its connection. -/
lemma get_user_trace_state (o : Option String) (uid : Int) (db : DBState) :
    (get_user o uid db).2.1 = db ∧
    (get_user o uid db).2.2 = [ConnEvent.acquire, ConnEvent.release] := by
  cases o with
  | none =>
      cases hf : db.rows.find? (fun r => r.id == uid) with
      | none =>
          rw [get_user_none_missing uid db hf]
          exact ⟨rfl, rfl⟩
      | some row =>
          rw [get_user_none_found uid db row hf]
          exact ⟨rfl, rfl⟩
  | some e => exact ⟨rfl, rfl⟩

/-- update_user always balances its connection. -/
lemma update_user_trace (o : Option String) (uid : Int) (p : Post)
    (db : DBState) :
    (update_user o uid p db).2.2 = [ConnEvent.acquire, ConnEvent.release] := by
  cases o with
  | none => rw [update_user_none]
  | some e => rfl

/-- C1: creating a user via the create handler and then fetching it by the
returned id yields the same record, whose name, email, phone and password
equal the submitted payload field for field (picture and is_active have no
column and do not take part). -/
theorem claim_C1 (p : Post) (db : DBState) (hwf : db.wf) :
    ∃ row : UserRow,
      (create_user none p db).1 = PyResult.ok row ∧
      (get_user none row.id (create_user none p db).2.1).1 = PyResult.ok row ∧
      row.name = p.name ∧ row.email = p.email ∧
      row.phone = p.phone ∧ row.password = p.password := by
  refine ⟨⟨db.nextId, p.name, p.email, p.phone, p.password⟩,
    ?_, ?_, rfl, rfl, rfl, rfl⟩
  · rw [create_user_none]
  · show (get_user none db.nextId ((create_user none p db).2.1)).1
      = PyResult.ok ⟨db.nextId, p.name, p.email, p.phone, p.password⟩
    have hfind : (((create_user none p db).2.1).rows.find?
        (fun r => r.id == db.nextId))
        = some ⟨db.nextId, p.name, p.email, p.phone, p.password⟩ := by
      rw [create_user_none]
      show ((db.rows ++
          [(⟨db.nextId, p.name, p.email, p.phone, p.password⟩ : UserRow)]).find?
        (fun r => r.id == db.nextId))
        = some ⟨db.nextId, p.name, p.email, p.phone, p.password⟩
      exact find?_id_append_singleton db.rows
        ⟨db.nextId, p.name, p.email, p.phone, p.password⟩
        (fun r hr => Int.ne_of_lt (hwf.2 r hr))
    rw [get_user_none_found db.nextId ((create_user none p db).2.1) _ hfind]

/-- C1 at a concrete input: the hypothesis holds and the round-trip
property follows by the theorem itself. -/
theorem claim_C1_witness :
    DBState.wf sampleDB ∧ ∃ row : UserRow,
      (create_user none samplePost sampleDB).1 = PyResult.ok row ∧
      (get_user none row.id (create_user none samplePost sampleDB).2.1).1
        = PyResult.ok row ∧
      row.name = samplePost.name ∧ row.email = samplePost.email ∧
      row.phone = samplePost.phone ∧ row.password = samplePost.password :=
  ⟨by decide, claim_C1 samplePost sampleDB (by decide)⟩

/-- C2: the create handler is declared with status 201, returns the full
inserted row whose fields equal the submitted values with a freshly
assigned id, and the submitted picture and is_active values do not affect
the insert at all. -/
theorem claim_C2 (p : Post) (db : DBState) (hwf : db.wf) :
    create_user_status = 201 ∧
    ∃ row : UserRow,
      (create_user none p db).1 = PyResult.ok row ∧
      row.name = p.name ∧ row.email = p.email ∧ row.phone = p.phone ∧
      row.password = p.password ∧ row.id = db.nextId ∧
      (∀ r ∈ db.rows, r.id ≠ row.id) ∧
      (create_user none p db).2.1.rows = db.rows ++ [row] ∧
      (∀ o : Option String, ∀ pic : Option String, ∀ act : Bool,
        create_user o { p with picture := pic, is_active := act } db
          = create_user o p db) := by
  refine ⟨rfl, ⟨db.nextId, p.name, p.email, p.phone, p.password⟩,
    ?_, rfl, rfl, rfl, rfl, rfl, ?_, ?_, ?_⟩
  · rw [create_user_none]
  · intro r hr
    exact Int.ne_of_lt (hwf.2 r hr)
  · rw [create_user_none]
  · intro o pic act
    cases o <;> rfl

/-- C2 at a concrete input. -/
theorem claim_C2_witness :
    DBState.wf sampleDB ∧
    (create_user_status = 201 ∧
    ∃ row : UserRow,
      (create_user none samplePost sampleDB).1 = PyResult.ok row ∧
      row.name = samplePost.name ∧ row.email = samplePost.email ∧
      row.phone = samplePost.phone ∧
      row.password = samplePost.password ∧ row.id = sampleDB.nextId ∧
      (∀ r ∈ sampleDB.rows, r.id ≠ row.id) ∧
      (create_user none samplePost sampleDB).2.1.rows
        = sampleDB.rows ++ [row] ∧
      (∀ o : Option String, ∀ pic : Option String, ∀ act : Bool,
        create_user o { samplePost with picture := pic, is_active := act }
            sampleDB
          = create_user o samplePost sampleDB)) :=
  ⟨by decide, claim_C2 samplePost sampleDB (by decide)⟩

/-- C3: the update handler answers 404 exactly when no row matches the id;
when a row matches it returns the row rebuilt from the payload with the
requested id unchanged. -/
theorem claim_C3 (uid : Int) (p : Post) (db : DBState) :
    ((update_user none uid p db).1 = PyResult.httpExc 404
        ("User with id:" ++ toString uid ++ " was not found")
      ↔ ∀ r ∈ db.rows, r.id ≠ uid) ∧
    ((∃ r ∈ db.rows, r.id = uid) →
      (update_user none uid p db).1
        = PyResult.ok ⟨uid, p.name, p.email, p.phone, p.password⟩) := by
  have hsome : (∃ r ∈ db.rows, r.id = uid) →
      (update_user none uid p db).1
        = PyResult.ok ⟨uid, p.name, p.email, p.phone, p.password⟩ := by
    intro h
    rw [update_user_none,
      sqlUpdate_fst_some db uid p.name p.email p.phone p.password h]
  have hnone : (∀ r ∈ db.rows, r.id ≠ uid) →
      (update_user none uid p db).1 = PyResult.httpExc 404
        ("User with id:" ++ toString uid ++ " was not found") := by
    intro h
    rw [update_user_none,
      sqlUpdate_fst_none db uid p.name p.email p.phone p.password h]
  refine ⟨⟨?_, hnone⟩, hsome⟩
  intro h404 r hr hEq
  have hok := hsome ⟨r, hr, hEq⟩
  rw [hok] at h404
  simp at h404

/-- C3 at a concrete input. -/
theorem claim_C3_witness :
    ((update_user none 5 samplePost sampleDB).1 = PyResult.httpExc 404
        ("User with id:" ++ toString (5 : Int) ++ " was not found")
      ↔ ∀ r ∈ sampleDB.rows, r.id ≠ 5) ∧
    ((∃ r ∈ sampleDB.rows, r.id = 5) →
      (update_user none 5 samplePost sampleDB).1
        = PyResult.ok ⟨5, samplePost.name, samplePost.email,
            samplePost.phone, samplePost.password⟩) :=
  claim_C3 5 samplePost sampleDB

/-- C4: the delete handler reports the success message whether or not any
row matched, and a subsequent fetch of the deleted id answers 404. -/
theorem claim_C4 (uid : Int) (db : DBState) :
    (delete_user none uid db).1 = PyResult.ok "User successfully deleted" ∧
    (get_user none uid (delete_user none uid db).2.1).1
      = PyResult.httpExc 404
        ("User with id:" ++ toString uid ++ " was not found") := by
  refine ⟨by rw [delete_user_none], ?_⟩
  have hf : ((delete_user none uid db).2.1).rows.find?
      (fun r => r.id == uid) = none := by
    rw [delete_user_none]
    exact find?_filter_ne db.rows uid
  rw [get_user_none_missing uid _ hf]

/-- C4 at a concrete input (an id with no matching row). -/
theorem claim_C4_witness :
    (delete_user none 9 sampleDB).1
      = PyResult.ok "User successfully deleted" ∧
    (get_user none 9 (delete_user none 9 sampleDB).2.1).1
      = PyResult.httpExc 404
        ("User with id:" ++ toString (9 : Int) ++ " was not found") :=
  claim_C4 9 sampleDB

/-- C5: fetching an id with no matching row answers 404 with the message
naming that id; fetching a present id returns a matching row. -/
theorem claim_C5 (uid : Int) (db : DBState) :
    ((∀ r ∈ db.rows, r.id ≠ uid) →
      (get_user none uid db).1 = PyResult.httpExc 404
        ("User with id:" ++ toString uid ++ " was not found")) ∧
    ((∃ r ∈ db.rows, r.id = uid) →
      ∃ row, row ∈ db.rows ∧ row.id = uid ∧
        (get_user none uid db).1 = PyResult.ok row) := by
  constructor
  · intro h
    have hf : db.rows.find? (fun r => r.id == uid) = none := by
      rw [List.find?_eq_none]
      intro x hx
      simpa [beq_iff_eq] using h x hx
    rw [get_user_none_missing uid db hf]
  · intro h
    cases hf : db.rows.find? (fun r => r.id == uid) with
    | none =>
        exfalso
        obtain ⟨r, hr, hrid⟩ := h
        have := List.find?_eq_none.mp hf r hr
        simp only [beq_iff_eq] at this
        exact this hrid
    | some row =>
        refine ⟨row, List.mem_of_find?_eq_some hf, ?_, ?_⟩
        · have := List.find?_some hf
          simpa [beq_iff_eq] using this
        · rw [get_user_none_found uid db row hf]

/-- C5 at a concrete input. -/
theorem claim_C5_witness :
    ((∀ r ∈ sampleDB.rows, r.id ≠ 7) →
      (get_user none 7 sampleDB).1 = PyResult.httpExc 404
        ("User with id:" ++ toString (7 : Int) ++ " was not found")) ∧
    ((∃ r ∈ sampleDB.rows, r.id = 7) →
      ∃ row, row ∈ sampleDB.rows ∧ row.id = 7 ∧
        (get_user none 7 sampleDB).1 = PyResult.ok row) :=
  claim_C5 7 sampleDB

/-- C6: a database exception is caught by create (500 JSON body carrying
the raw error string) and by delete (HTTPException 500 embedding it), but
propagates uncaught past list, get-one and update. -/
theorem claim_C6 (e : String) (p : Post) (uid : Int) (db : DBState) :
    (create_user (some e) p db).1 = PyResult.jsonError 500 e ∧
    (delete_user (some e) uid db).1
      = PyResult.httpExc 500 ("Failed to delete user: " ++ e) ∧
    (get_users (some e) db).1 = PyResult.unhandled e ∧
    (get_user (some e) uid db).1 = PyResult.unhandled e ∧
    (update_user (some e) uid p db).1 = PyResult.unhandled e :=
  ⟨rfl, rfl, rfl, rfl, rfl⟩

/-- C6 at a concrete input. -/
theorem claim_C6_witness :
    (create_user (some "boom") samplePost sampleDB).1
      = PyResult.jsonError 500 "boom" ∧
    (delete_user (some "boom") 1 sampleDB).1
      = PyResult.httpExc 500 ("Failed to delete user: " ++ "boom") ∧
    (get_users (some "boom") sampleDB).1 = PyResult.unhandled "boom" ∧
    (get_user (some "boom") 1 sampleDB).1 = PyResult.unhandled "boom" ∧
    (update_user (some "boom") 1 samplePost sampleDB).1
      = PyResult.unhandled "boom" :=
  claim_C6 "boom" samplePost 1 sampleDB

/-- C8: every handler emits exactly one acquire followed by one release on
every path, the caught-error branches included. -/
theorem claim_C8 (o : Option String) (p : Post) (uid : Int) (db : DBState) :
    (get_users o db).2.2 = [ConnEvent.acquire, ConnEvent.release] ∧
    (create_user o p db).2.2 = [ConnEvent.acquire, ConnEvent.release] ∧
    (get_user o uid db).2.2 = [ConnEvent.acquire, ConnEvent.release] ∧
    (delete_user o uid db).2.2 = [ConnEvent.acquire, ConnEvent.release] ∧
    (update_user o uid p db).2.2 = [ConnEvent.acquire, ConnEvent.release] := by
  refine ⟨?_, ?_, (get_user_trace_state o uid db).2, ?_,
    update_user_trace o uid p db⟩
  · cases o <;> rfl
  · cases o <;> rfl
  · cases o <;> rfl

/-- C8 at a concrete input (a failing driver call). -/
theorem claim_C8_witness :
    (get_users (some "down") sampleDB).2.2
      = [ConnEvent.acquire, ConnEvent.release] ∧
    (create_user (some "down") samplePost sampleDB).2.2
      = [ConnEvent.acquire, ConnEvent.release] ∧
    (get_user (some "down") 1 sampleDB).2.2
      = [ConnEvent.acquire, ConnEvent.release] ∧
    (delete_user (some "down") 1 sampleDB).2.2
      = [ConnEvent.acquire, ConnEvent.release] ∧
    (update_user (some "down") 1 samplePost sampleDB).2.2
      = [ConnEvent.acquire, ConnEvent.release] :=
  claim_C8 (some "down") samplePost 1 sampleDB

/-- C9: the two read handlers leave the table untouched on every path. -/
theorem claim_C9 (o : Option String) (uid : Int) (db : DBState) :
    (get_users o db).2.1 = db ∧ (get_user o uid db).2.1 = db :=
  ⟨by cases o <;> rfl, (get_user_trace_state o uid db).1⟩

/-- C9 at a concrete input. -/
theorem claim_C9_witness :
    (get_users none sampleDB).2.1 = sampleDB ∧
    (get_user none 1 sampleDB).2.1 = sampleDB :=
  claim_C9 none 1 sampleDB

/-- C7: the list handler returns every row of the table; creating N users
from the empty table and then deleting M distinct previously created ids
leaves exactly N - M records, with pairwise-distinct ids. -/
theorem claim_C7 (ps : List Post) (ids : List Int) (hn : ids.Nodup)
    (hmem : ∀ i ∈ ids, i ∈ (createAll ps emptyDB).rows.map UserRow.id) :
    (get_users none (deleteAll ids (createAll ps emptyDB))).1
      = PyResult.ok (deleteAll ids (createAll ps emptyDB)).rows ∧
    (deleteAll ids (createAll ps emptyDB)).rows.length
      = ps.length - ids.length ∧
    ((deleteAll ids (createAll ps emptyDB)).rows.map UserRow.id).Nodup := by
  have hemp : emptyDB.wf := by
    constructor
    · simp [emptyDB]
    · intro r hr
      simp [emptyDB] at hr
  obtain ⟨hwfC, hlenC⟩ := createAll_facts ps emptyDB hemp
  obtain ⟨hwfD, hlenD⟩ :=
    deleteAll_facts ids (createAll ps emptyDB) hn hwfC hmem
  refine ⟨rfl, ?_, hwfD.1⟩
  have h0 : emptyDB.rows.length = 0 := rfl
  omega

/-- C7 at a concrete input: one create, one delete, empty listing. -/
theorem claim_C7_witness :
    ([(1 : Int)].Nodup ∧
      ∀ i ∈ [(1 : Int)],
        i ∈ (createAll [samplePost] emptyDB).rows.map UserRow.id) ∧
    ((get_users none (deleteAll [(1 : Int)] (createAll [samplePost] emptyDB))).1
        = PyResult.ok
            (deleteAll [(1 : Int)] (createAll [samplePost] emptyDB)).rows ∧
      (deleteAll [(1 : Int)] (createAll [samplePost] emptyDB)).rows.length
        = [samplePost].length - [(1 : Int)].length ∧
      ((deleteAll [(1 : Int)]
          (createAll [samplePost] emptyDB)).rows.map UserRow.id).Nodup) :=
  ⟨⟨by decide, by decide⟩,
    claim_C7 [samplePost] [(1 : Int)] (by decide) (by decide)⟩

/-- C10: frame conditions of the write handlers: create appends exactly one
row and keeps the old ones; delete removes at most the matching row and
keeps every other row; update rewrites at most the matching row in place
and keeps every other row. -/
theorem claim_C10 (uid : Int) (p : Post) (db : DBState) (hwf : db.wf) :
    (∃ row, (create_user none p db).1 = PyResult.ok row ∧
       (create_user none p db).2.1.rows = db.rows ++ [row]) ∧
    ((delete_user none uid db).2.1.rows.Sublist db.rows ∧
     (∀ r ∈ db.rows, r.id ≠ uid → r ∈ (delete_user none uid db).2.1.rows) ∧
     (∀ r ∈ (delete_user none uid db).2.1.rows, r ∈ db.rows ∧ r.id ≠ uid) ∧
     db.rows.length ≤ (delete_user none uid db).2.1.rows.length + 1) ∧
    List.Forall₂
      (fun old new => (old.id ≠ uid → new = old) ∧
        (old.id = uid →
          new = (⟨old.id, p.name, p.email, p.phone, p.password⟩ : UserRow)))
      db.rows (update_user none uid p db).2.1.rows := by
  refine ⟨?_, ?_, ?_⟩
  · exact ⟨⟨db.nextId, p.name, p.email, p.phone, p.password⟩,
      by rw [create_user_none], by rw [create_user_none]⟩
  · rw [delete_user_none]
    refine ⟨?_, ?_, ?_, ?_⟩
    · show (db.rows.filter (fun r => r.id != uid)).Sublist db.rows
      exact List.filter_sublist db.rows
    · show ∀ r ∈ db.rows, r.id ≠ uid →
        r ∈ db.rows.filter (fun r => r.id != uid)
      intro r hr hne
      exact List.mem_filter.mpr ⟨hr, by simpa [bne_iff_ne] using hne⟩
    · show ∀ r ∈ db.rows.filter (fun r => r.id != uid),
        r ∈ db.rows ∧ r.id ≠ uid
      intro r hr
      have h2 := List.mem_filter.mp hr
      exact ⟨h2.1, by simpa [bne_iff_ne] using h2.2⟩
    · show db.rows.length ≤
        (db.rows.filter (fun r => r.id != uid)).length + 1
      by_cases hm : uid ∈ db.rows.map UserRow.id
      · have := length_filter_ne_of_mem db.rows uid hwf.1 hm
        omega
      · have hself : db.rows.filter (fun r => r.id != uid) = db.rows := by
          rw [List.filter_eq_self]
          intro r hr
          simp only [bne_iff_ne, ne_eq, decide_eq_true_eq]
          intro hEq
          exact hm (hEq ▸ List.mem_map_of_mem UserRow.id hr)
        rw [hself]
        omega
  · rw [update_user_none]
    show List.Forall₂
      (fun old new => (old.id ≠ uid → new = old) ∧
        (old.id = uid →
          new = (⟨old.id, p.name, p.email, p.phone, p.password⟩ : UserRow)))
      db.rows (db.rows.map (fun r =>
        if r.id == uid then
          (⟨r.id, p.name, p.email, p.phone, p.password⟩ : UserRow)
        else r))
    rw [List.forall₂_map_right_iff, List.forall₂_same]
    intro r hr
    by_cases h0 : r.id = uid
    · constructor
      · intro hne
        exact absurd h0 hne
      · intro _
        rw [if_pos (by simpa [beq_iff_eq] using h0)]
    · constructor
      · intro _
        rw [if_neg (by simpa [beq_iff_eq] using h0)]
      · intro hEq
        exact absurd hEq h0

/-- C10 at a concrete input. -/
theorem claim_C10_witness :
    DBState.wf sampleDB ∧
    ((∃ row, (create_user none samplePost sampleDB).1 = PyResult.ok row ∧
       (create_user none samplePost sampleDB).2.1.rows
         = sampleDB.rows ++ [row]) ∧
    ((delete_user none 1 sampleDB).2.1.rows.Sublist sampleDB.rows ∧
     (∀ r ∈ sampleDB.rows, r.id ≠ 1 →
        r ∈ (delete_user none 1 sampleDB).2.1.rows) ∧
     (∀ r ∈ (delete_user none 1 sampleDB).2.1.rows,
        r ∈ sampleDB.rows ∧ r.id ≠ 1) ∧
     sampleDB.rows.length ≤ (delete_user none 1 sampleDB).2.1.rows.length + 1) ∧
    List.Forall₂
      (fun old new => (old.id ≠ 1 → new = old) ∧
        (old.id = 1 →
          new = (⟨old.id, samplePost.name, samplePost.email, samplePost.phone,
            samplePost.password⟩ : UserRow)))
      sampleDB.rows (update_user none 1 samplePost sampleDB).2.1.rows) :=
  ⟨by decide, claim_C10 1 samplePost sampleDB (by decide)⟩

end Radiobackend
